import Mathlib

/-!
# EdgeNest — a pull-only caching mirror for OCI image manifests

Shallow embedding of the `edgenest` Go program: the manifest path
validator, the request handler's method dispatch, upstream-forwarding
configuration, and (modelled from the spec, since the source leaves the
cache as a TODO) the manifest cache with single-flight coalescing.
-/

namespace EdgeNest

/-! ## Path validator

The source decides path validity with the Go regular expression
`^/v2/(.+)/manifests/([^/]+)$` (`isValidManifestPath` in `edgenest.go`).
In Go's RE2 syntax `.` matches any character except newline, while the
negated class `[^/]` matches any character other than `/` (newline
included).  `MatchString` asks only whether some decomposition of the
path matches, so the embedding below accepts a path exactly when it can
be written as `/v2/` ++ repo ++ `/manifests/` ++ ref with repo non-empty
and newline-free and ref non-empty and slash-free. -/

/-- The literal `/manifests/` as a character list. -/
def manifestsLit : List Char :=
  ['/', 'm', 'a', 'n', 'i', 'f', 'e', 's', 't', 's', '/']

/-- The literal `/v2/` as a character list. -/
def v2Lit : List Char := ['/', 'v', '2', '/']

/-- Remove an expected literal from the front of a character list,
returning the remainder, or `none` when the list does not start with
the literal. -/
def dropLit : List Char → List Char → Option (List Char)
  | [], l => some l
  | _ :: _, [] => none
  | c :: cs, d :: ds => if d = c then dropLit cs ds else none

/-- Does the tail of the path match `/manifests/([^/]+)$`: the literal
followed by a non-empty run of non-slash characters? -/
def refMatch (l : List Char) : Bool :=
  match dropLit manifestsLit l with
  | some b => !b.isEmpty && b.all (fun c => c ≠ '/')
  | none => false

/-- Does the character list decompose as `(.+)/manifests/([^/]+)$`:
a non-empty newline-free part, the literal `/manifests/`, then a
non-empty slash-free reference?  Go's `.` excludes newline, which is why
a leading newline character kills every remaining split. -/
def repoSplit : List Char → Bool
  | [] => false
  | c :: rest => if c = '\n' then false else (refMatch rest || repoSplit rest)

/-- Embedding of `isValidManifestPath` (edgenest.go:75-77): the Go
regexp `^/v2/(.+)/manifests/([^/]+)$` applied with `MatchString`. -/
def isValidManifestPath (path : String) : Bool :=
  match dropLit v2Lit path.data with
  | some r => repoSplit r
  | none => false

/-! ## Request handling (current source)

`RegisterRoutes` (edgenest.go:64-73) installs one handler for the
`/v2/` prefix: a valid manifest path goes to `handleManifest`, anything
else gets `http.NotFound` (status 404, body `404 page not found\n`).
`handleManifest` (edgenest.go:79-91) forwards `GET` to the reverse
proxy; every other method gets status 405 with header `Allow: GET` and
body `method not allowed\n`.  The reverse proxy forwards the original
method and path to the upstream and relays the upstream's status,
`Content-Type`, `Docker-Content-Digest` and body. -/

/-- An upstream registry response, as the reverse proxy surfaces it:
status code, the two headers the system cares about, and the body. -/
structure UpResponse where
  status : Nat
  contentType : Option String
  digest : Option String
  body : String
deriving DecidableEq

/-- What a request produces at the client, together with how many
upstream calls serving it made. -/
structure Outcome where
  status : Nat
  allowHeader : Option String
  contentType : Option String
  digest : Option String
  body : String
  upstreamCalls : Nat
deriving DecidableEq

/-- Embedding of `handleManifest` (edgenest.go:79-91): `GET` is proxied
upstream (one upstream call, upstream response relayed verbatim); any
other method — `HEAD` included — is answered locally with 405,
`Allow: GET`, and `http.Error`'s body, without contacting upstream. -/
def handleManifest (upstream : String → String → UpResponse)
    (method path : String) : Outcome :=
  if method = "GET" then
    let r := upstream method path
    { status := r.status, allowHeader := none, contentType := r.contentType
      digest := r.digest, body := r.body, upstreamCalls := 1 }
  else
    { status := 405, allowHeader := some "GET", contentType := none
      digest := none, body := "method not allowed\n", upstreamCalls := 0 }

/-- Embedding of the handler registered by `RegisterRoutes`
(edgenest.go:64-73): path validation first, `http.NotFound` on failure,
`handleManifest` (and only then the method check) on success. -/
def serveV2 (upstream : String → String → UpResponse)
    (method path : String) : Outcome :=
  if isValidManifestPath path then
    handleManifest upstream method path
  else
    { status := 404, allowHeader := none, contentType := none
      digest := none, body := "404 page not found\n", upstreamCalls := 0 }

/-- The upstream used by the repository's own tests: status 200, the
Docker v2 manifest content type, digest `sha256:c0ffee`, and a fixed
JSON body. -/
def testUpstream : String → String → UpResponse := fun _ _ =>
  { status := 200
    contentType := some "application/vnd.docker.distribution.manifest.v2+json"
    digest := some "sha256:c0ffee"
    body := "\x7b\"schemaVersion\":2,\"mediaType\":\"application/vnd.docker.distribution.manifest.v2+json\"\x7d" }

/-! ## Upstream forwarder construction

`NewEdgeNest` (edgenest.go:41-62) parses the upstream base address,
rejects it when the parsed URL lacks a scheme or a host, and otherwise
builds a reverse proxy whose transport has `DisableCompression: true`.
URL parsing itself is `net/url`, an external collaborator, so the
embedding takes the parse outcome as input. -/

/-- The fields of a parsed URL that `NewEdgeNest` inspects. -/
structure GoURL where
  scheme : String
  host : String
deriving DecidableEq

/-- The transport configuration `NewEdgeNest` installs on the reverse
proxy (edgenest.go:55-57). -/
structure Transport where
  disableCompression : Bool
deriving DecidableEq

/-- A constructed mirror: the reverse proxy's transport settings. -/
structure EdgeNestCfg where
  transport : Transport
deriving DecidableEq

/-- Embedding of `NewEdgeNest` (edgenest.go:41-62): a parse error is
returned as-is; a parsed URL with empty scheme or empty host fails with
the configuration error; otherwise the mirror is built with compression
disabled on the upstream transport. -/
def NewEdgeNest (parsed : Except String GoURL) : Except String EdgeNestCfg :=
  match parsed with
  | .error e => .error e
  | .ok u =>
    if u.scheme = "" || u.host = "" then
      .error "upstream URL missing scheme or host"
    else
      .ok { transport := { disableCompression := true } }

/-- Body delivery through the transport, modelling the `net/http`
contract the source relies on (the comment at edgenest.go:54 — digests
depend on the content's exact bytes): with `DisableCompression` set the
bytes pass through untouched, otherwise the transport may apply a
content transformation (abstracted as an arbitrary re-coding
function). -/
def transportBody (t : Transport) (transform : String → String)
    (body : String) : String :=
  if t.disableCompression then body else transform body

/-! ## Manifest cache (modelled from the spec)

`handleManifest` leaves the cache as a TODO (edgenest.go:82-83), so the
Manifest Cache of spec §4.3 and the cache-serving branch of the request
lifecycle of §4.5 have no source; they are modelled from the spec's
words below.  A key is `(repository, reference)`; a `CachedManifest` is
the immutable snapshot of a successful upstream response; an entry is
inserted only for a success response carrying a non-empty digest. -/

/-- `ManifestKey` (spec §3): repository and reference, compared by
exact string equality. -/
def ManifestKey : Type := String × String
deriving DecidableEq

/-- `CachedManifest` (spec §3): immutable snapshot of a successful
upstream response. -/
structure CachedManifest where
  contentType : String
  contentDigest : String
  body : String
  statusCode : Nat
deriving DecidableEq

/-- What the spec-modelled handler returns to the client. -/
structure Reply where
  status : Nat
  contentType : Option String
  digest : Option String
  body : String
deriving DecidableEq

/-- The cache contents: a total map from keys to optional entries. -/
def Cache : Type := ManifestKey → Option CachedManifest

/-- Modelled from the spec: serving a request from a cache entry
(spec §4.5 step 4) — cached content type and digest, the cached body
for a body-fetch, an empty body for a headers-only fetch. -/
def hitReply (method : String) (e : CachedManifest) : Reply :=
  { status := e.statusCode, contentType := some e.contentType
    digest := some e.contentDigest
    body := if method = "HEAD" then "" else e.body }

/-- An upstream fetch result as the forwarder surfaces it to the
handler (spec §4.4). -/
structure FetchResult where
  status : Nat
  contentType : Option String
  digest : Option String
  body : String
deriving DecidableEq

/-- Modelled from the spec: is an upstream response cacheable?  Spec §3
invariants: only success (200) responses with a non-empty digest are
cached. -/
def cacheable (r : FetchResult) : Bool :=
  r.status = 200 && (r.digest.getD "") ≠ ""

/-- Modelled from the spec: the entry built from a cacheable upstream
response. -/
def entryOf (r : FetchResult) : CachedManifest :=
  { contentType := r.contentType.getD ""
    contentDigest := r.digest.getD ""
    body := r.body
    statusCode := r.status }

/-- Modelled from the spec: one pass through the sequential request
lifecycle of §4.5 for an already-validated request — cache lookup, hit
served from the entry with zero upstream calls, miss fetched upstream
(counted), cached only when cacheable, error passed through with
identical status and body.  Returns the reply, the cache afterwards,
and how many upstream calls were made. -/
def processRequest (upstream : ManifestKey → FetchResult) (st : Cache)
    (method : String) (key : ManifestKey) : Reply × Cache × Nat :=
  match st key with
  | some e => (hitReply method e, st, 0)
  | none =>
    let r := upstream key
    if cacheable r then
      let e := entryOf r
      (hitReply method e,
        fun k => if k = key then some e else st k, 1)
    else
      ({ status := r.status, contentType := r.contentType
         digest := r.digest, body := r.body }, st, 1)

/-- Modelled from the spec: a whole sequence of requests processed in
order, accumulating replies and the total number of upstream calls. -/
def processSeq (upstream : ManifestKey → FetchResult) (st : Cache) :
    List (String × ManifestKey) → List Reply × Cache × Nat
  | [] => ([], st, 0)
  | (method, key) :: rest =>
    let (reply, st1, n1) := processRequest upstream st method key
    let (replies, st2, n2) := processSeq upstream st1 rest
    (reply :: replies, st2, n1 + n2)

/-! ## Single-flight coalescing (modelled from the spec)

Spec §4.3/§9: the first requester for an uncached key installs a
per-key in-flight record and performs the one upstream call; later
requesters join the record; resolution delivers the same result to
every waiter, caches it, and removes the record.  The model is a
transition system over explicit states, with an event trace standing
for an interleaving of concurrent requests. -/

/-- Modelled from the spec: the shared state of the cache with
single-flight coordination — the cache proper, the per-key in-flight
waiter list (`InFlightFetch`, spec §3), the result each requester has
received so far, and a counter of upstream calls started. -/
structure FlightState where
  cache : Cache
  inflight : ManifestKey → Option (List Nat)
  delivered : Nat → Option CachedManifest
  upstreamCalls : Nat

/-- Events of the single-flight model: a requester (identified by a
number) arrives for a key, or the in-flight fetch for a key resolves
with a successfully fetched entry. -/
inductive Event where
  | arrive (rid : Nat) (key : ManifestKey)
  | resolve (key : ManifestKey) (v : CachedManifest)

/-- Modelled from the spec: one transition.  An arrival for a cached
key is answered at once; an arrival for a key with a fetch in flight
joins the waiter list; an arrival for an idle uncached key becomes the
owner, installing the record and starting the one upstream call.
Resolution requires an in-flight record: it caches the entry, delivers
it to every waiter, and removes the record. -/
def stepEvent (s : FlightState) : Event → Option FlightState
  | .arrive rid key =>
    match s.cache key with
    | some e =>
      some { s with delivered := fun r => if r = rid then some e else s.delivered r }
    | none =>
      match s.inflight key with
      | some ws =>
        some { s with inflight := fun k => if k = key then some (rid :: ws) else s.inflight k }
      | none =>
        some { s with
          inflight := fun k => if k = key then some [rid] else s.inflight k
          upstreamCalls := s.upstreamCalls + 1 }
  | .resolve key v =>
    match s.inflight key with
    | some ws =>
      some { s with
        cache := fun k => if k = key then some v else s.cache k
        inflight := fun k => if k = key then none else s.inflight k
        delivered := fun r => if r ∈ ws then some v else s.delivered r }
    | none => none

/-- Run a trace of events from a state; `none` when some event was not
enabled. -/
def runTrace (s : FlightState) : List Event → Option FlightState
  | [] => some s
  | e :: rest =>
    match stepEvent s e with
    | some s1 => runTrace s1 rest
    | none => none

/-- The initial single-flight state: empty cache, nothing in flight,
nothing delivered, no upstream calls. -/
def initFlight : FlightState :=
  { cache := fun _ => none, inflight := fun _ => none
    delivered := fun _ => none, upstreamCalls := 0 }

/-! ## Lemmas about the path validator -/

/-- `dropLit` succeeds exactly on lists that start with the literal,
returning the rest. -/
theorem dropLit_eq_some (lit : List Char) :
    ∀ l r : List Char, dropLit lit l = some r ↔ l = lit ++ r := by
  induction lit with
  | nil => intro l r; simp [dropLit]
  | cons c cs ih =>
    intro l r
    cases l with
    | nil => simp [dropLit]
    | cons d ds =>
      by_cases h : d = c
      · subst h; simp [dropLit, ih]
      · simp [dropLit, h]

/-- `refMatch` recognises exactly the tails `/manifests/` ++ ref with
ref non-empty and slash-free. -/
theorem refMatch_iff (l : List Char) :
    refMatch l = true ↔
      ∃ B, l = manifestsLit ++ B ∧ B ≠ [] ∧ ∀ c ∈ B, c ≠ '/' := by
  unfold refMatch
  cases h : dropLit manifestsLit l with
  | none =>
    constructor
    · intro hf; cases hf
    · rintro ⟨B, hB, -, -⟩
      rw [(dropLit_eq_some manifestsLit l B).mpr hB] at h
      cases h
  | some b =>
    have hl : l = manifestsLit ++ b := (dropLit_eq_some manifestsLit l b).mp h
    subst hl
    constructor
    · intro hb
      refine ⟨b, rfl, ?_, ?_⟩
      · intro hbe
        subst hbe
        simp at hb
      · intro c hc
        have := (Bool.and_eq_true _ _).mp hb |>.2
        have := (List.all_eq_true.mp this) c hc
        simpa using this
    · rintro ⟨B, hB, hBne, hBs⟩
      have hbB : b = B := by
        have := List.append_cancel_left hB
        exact this
      subst hbB
      refine (Bool.and_eq_true _ _).mpr ⟨?_, ?_⟩
      · cases b with
        | nil => exact absurd rfl hBne
        | cons x xs => rfl
      · exact List.all_eq_true.mpr fun c hc => by simpa using hBs c hc

/-- `repoSplit` recognises exactly the tails repo ++ `/manifests/` ++
ref with repo non-empty and newline-free and ref non-empty and
slash-free — the decompositions Go's `(.+)/manifests/([^/]+)$` can
match. -/
theorem repoSplit_iff (l : List Char) :
    repoSplit l = true ↔
      ∃ A B, l = A ++ manifestsLit ++ B ∧ A ≠ [] ∧ (∀ c ∈ A, c ≠ '\n') ∧
        B ≠ [] ∧ ∀ c ∈ B, c ≠ '/' := by
  induction l with
  | nil =>
    constructor
    · intro hf; cases hf
    · rintro ⟨A, B, hEq, hA, -, -, -⟩
      cases A with
      | nil => exact absurd rfl hA
      | cons a as => cases hEq
  | cons c rest ih =>
    by_cases hc : c = '\n'
    · subst hc
      constructor
      · intro hf; simp [repoSplit] at hf
      · rintro ⟨A, B, hEq, hA, hAnl, -, -⟩
        cases A with
        | nil => exact absurd rfl hA
        | cons a as =>
          have ha : a = '\n' := by
            have := congrArg (List.head?) hEq
            simpa using this.symm
          exact absurd ha (by
            intro h; exact hAnl a (List.mem_cons_self a as) (h ▸ rfl))
    · rw [show repoSplit (c :: rest) = (refMatch rest || repoSplit rest) by
        simp [repoSplit, hc]]
      rw [Bool.or_eq_true, refMatch_iff, ih]
      constructor
      · rintro (⟨B, hB, hBne, hBs⟩ | ⟨A, B, hEq, hA, hAnl, hBne, hBs⟩)
        · exact ⟨[c], B, by simp [hB], by simp,
            fun x hx => by simp at hx; simpa [hx] using hc, hBne, hBs⟩
        · refine ⟨c :: A, B, by simp [hEq], by simp, ?_, hBne, hBs⟩
          intro x hx
          rcases List.mem_cons.mp hx with hx | hx
          · simpa [hx] using hc
          · exact hAnl x hx
      · rintro ⟨A, B, hEq, hA, hAnl, hBne, hBs⟩
        cases A with
        | nil => exact absurd rfl hA
        | cons a as =>
          have hca : c = a := by
            have := congrArg (List.head?) hEq
            simpa using this
          have hrest : rest = as ++ manifestsLit ++ B := by
            have := congrArg (List.tail) hEq
            simpa using this
          cases as with
          | nil => exact Or.inl ⟨B, by simpa using hrest, hBne, hBs⟩
          | cons a2 as2 =>
            refine Or.inr ⟨a2 :: as2, B, hrest, by simp, ?_, hBne, hBs⟩
            intro x hx
            exact hAnl x (List.mem_cons_of_mem a hx)

/-- The full characterisation of `isValidManifestPath`: Go's
`^/v2/(.+)/manifests/([^/]+)$` accepts exactly the paths
`/v2/<repo>/manifests/<ref>` where `<repo>` is any non-empty
newline-free string — slashes, and hence empty interior segments, are
allowed, since `.` matches `/` — and `<ref>` is non-empty and contains
no slash. -/
theorem validPath_charact (path : String) :
    isValidManifestPath path = true ↔
      ∃ repo ref : String,
        path = "/v2/" ++ repo ++ "/manifests/" ++ ref ∧
        repo ≠ "" ∧ (∀ c ∈ repo.data, c ≠ '\n') ∧
        ref ≠ "" ∧ ∀ c ∈ ref.data, c ≠ '/' := by
  have hv2 : "/v2/".data = v2Lit := rfl
  have hman : "/manifests/".data = manifestsLit := rfl
  unfold isValidManifestPath
  cases h : dropLit v2Lit path.data with
  | none =>
    constructor
    · intro hf; cases hf
    · rintro ⟨repo, ref, hEq, -, -, -, -⟩
      have hd : path.data = v2Lit ++ (repo.data ++ (manifestsLit ++ ref.data)) := by
        rw [hEq]
        simp [String.data_append, v2Lit, manifestsLit]
      rw [(dropLit_eq_some v2Lit path.data _).mpr hd] at h
      cases h
  | some r =>
    have hl : path.data = v2Lit ++ r := (dropLit_eq_some v2Lit path.data r).mp h
    rw [repoSplit_iff]
    constructor
    · rintro ⟨A, B, hr, hA, hAnl, hB, hBs⟩
      refine ⟨String.mk A, String.mk B, ?_, ?_, hAnl, ?_, hBs⟩
      · apply String.ext
        simp [String.data_append, v2Lit, manifestsLit, hl, hr]
      · intro hE
        exact hA (congrArg String.data hE)
      · intro hE
        exact hB (congrArg String.data hE)
    · rintro ⟨repo, ref, hEq, hrne, hnl, hfne, hfs⟩
      refine ⟨repo.data, ref.data, ?_, ?_, hnl, ?_, hfs⟩
      · have hd : path.data = v2Lit ++ (repo.data ++ (manifestsLit ++ ref.data)) := by
          rw [hEq]
          simp [String.data_append, v2Lit, manifestsLit]
        rw [hl] at hd
        have := List.append_cancel_left hd
        simpa using this
      · intro hE
        exact hrne (String.ext (by simpa using hE))
      · intro hE
        exact hfne (String.ext (by simpa using hE))

/-! ## Claim theorems: path validation -/

/-- C5 (counterexample): the claim says every path containing an empty
repository segment, such as `/v2/a//b/manifests/latest`, is rejected;
the code's regexp `(.+)` matches `a//b` (Go's `.` matches `/`), so the
validator accepts that very path. -/
theorem empty_segment_path_is_accepted :
    isValidManifestPath "/v2/a//b/manifests/latest" = true := by decide

/-- C5 (amended): the validator accepts a path exactly when it matches
`/v2/<repository>/manifests/<reference>` where `<repository>` is any
non-empty newline-free string — its `/`-separated segments may be
empty — and `<reference>` is a single non-empty, non-slash segment; the
paths the claim lists (`/v2/`, missing repository, missing reference,
missing `manifests`, trailing slash) are still rejected, while an empty
interior repository segment is accepted. -/
theorem path_validator_grammar :
    (∀ path : String, isValidManifestPath path = true ↔
        ∃ repo ref : String,
          path = "/v2/" ++ repo ++ "/manifests/" ++ ref ∧ repo ≠ "" ∧
          (∀ c ∈ repo.data, c ≠ '\n') ∧ ref ≠ "" ∧ ∀ c ∈ ref.data, c ≠ '/') ∧
    isValidManifestPath "/v2/a//b/manifests/latest" = true ∧
    isValidManifestPath "/v2/" = false ∧
    isValidManifestPath "/v2/manifests/latest" = false ∧
    isValidManifestPath "/v2/library/alpine/manifests/" = false ∧
    isValidManifestPath "/v2/library/alpine/latest" = false ∧
    isValidManifestPath "/v2/library/alpine/manifests/latest/" = false :=
  ⟨validPath_charact, by decide, by decide, by decide, by decide, by decide, by decide⟩

/-- C10 (counterexample): the claim says every path of the form
`/v2/<a>/manifests/<b>/manifests/<ref>` with `<ref>` non-empty and
slash-free is accepted; with `<a>` a newline character the repository
part cannot be matched by `(.+)` (Go's `.` excludes newline), so the
validator rejects such a path. -/
theorem double_manifests_newline_rejected :
    isValidManifestPath "/v2/\n/manifests/b/manifests/latest" = false := by decide

/-- C10 (amended): for every `<a>` and `<b>` that contain no newline
character, and every non-empty slash-free `<ref>`, the path
`/v2/<a>/manifests/<b>/manifests/<ref>` is accepted — the repository
part matched by `(.+)` is everything up to the last `/manifests/`, so a
repository segment may itself be the literal `manifests`. -/
theorem double_manifests_accepted (a b ref : String)
    (ha : ∀ c ∈ a.data, c ≠ '\n') (hb : ∀ c ∈ b.data, c ≠ '\n')
    (hr : ref ≠ "") (hs : ∀ c ∈ ref.data, c ≠ '/') :
    isValidManifestPath
      ("/v2/" ++ a ++ "/manifests/" ++ b ++ "/manifests/" ++ ref) = true := by
  rw [validPath_charact]
  refine ⟨a ++ "/manifests/" ++ b, ref, ?_, ?_, ?_, hr, hs⟩
  · apply String.ext
    simp [String.data_append]
  · intro h
    have hd := congrArg String.data h
    simp [String.data_append] at hd
  · intro c hc
    simp only [String.data_append] at hc
    rcases List.mem_append.mp hc with hc | hc
    · rcases List.mem_append.mp hc with hc | hc
      · exact ha c hc
      · intro hEq
        subst hEq
        simp at hc
    · exact hb c hc

/-- C10 (witness): the amended acceptance at
`/v2/a/manifests/b/manifests/latest`. -/
theorem double_manifests_accepted_concrete :
    isValidManifestPath "/v2/a/manifests/b/manifests/latest" = true := by
  have h := double_manifests_accepted "a" "b" "latest"
    (by decide) (by decide) (by decide) (by decide)
  simpa using h

/-! ## Claim theorems: method dispatch and routing -/

/-- C1: on every valid manifest path, the code answers a `HEAD` request
with 405 `Allow: GET` and never forwards it upstream — `handleManifest`
treats every method other than `GET` as unsupported, contradicting the
repository's `TestManifestHEAD`, which expects `HEAD` to be proxied with
the upstream's headers and an empty body. -/
theorem head_request_gets_405 (upstream : String → String → UpResponse)
    (path : String) (h : isValidManifestPath path = true) :
    serveV2 upstream "HEAD" path =
      { status := 405, allowHeader := some "GET", contentType := none
        digest := none, body := "method not allowed\n", upstreamCalls := 0 } := by
  simp [serveV2, h, handleManifest]

/-- C1 (witness): the rejection at the test's own path. -/
theorem head_request_gets_405_concrete :
    isValidManifestPath "/v2/library/alpine/manifests/latest" = true ∧
    serveV2 testUpstream "HEAD" "/v2/library/alpine/manifests/latest" =
      { status := 405, allowHeader := some "GET", contentType := none
        digest := none, body := "method not allowed\n", upstreamCalls := 0 } :=
  ⟨by decide, head_request_gets_405 testUpstream _ (by decide)⟩

/-- C2: on every valid manifest path, every method other than `GET` —
so in particular `POST`, `PUT`, `DELETE`, `PATCH`, `OPTIONS` — gets
status 405 without upstream contact, but the `Allow` header the code
sets is exactly `GET`, not the claimed `GET, HEAD`. -/
theorem non_get_gets_405_allow_get (upstream : String → String → UpResponse)
    (method path : String) (hp : isValidManifestPath path = true)
    (hm : method ≠ "GET") :
    serveV2 upstream method path =
      { status := 405, allowHeader := some "GET", contentType := none
        digest := none, body := "method not allowed\n", upstreamCalls := 0 } := by
  simp [serveV2, hp, handleManifest, hm]

/-- C2 (witness): a `POST` to the test's path. -/
theorem non_get_gets_405_allow_get_concrete :
    isValidManifestPath "/v2/library/alpine/manifests/latest" = true ∧
    "POST" ≠ "GET" ∧
    serveV2 testUpstream "POST" "/v2/library/alpine/manifests/latest" =
      { status := 405, allowHeader := some "GET", contentType := none
        digest := none, body := "method not allowed\n", upstreamCalls := 0 } :=
  ⟨by decide, by decide,
    non_get_gets_405_allow_get testUpstream "POST" _ (by decide) (by decide)⟩

/-- C6: whatever the method, a request whose path fails validation is
answered with `http.NotFound` — status 404, the standard body — and
zero upstream calls; `handleManifest`, and with it the method check, is
reached only when validation succeeds. -/
theorem invalid_path_not_found (upstream : String → String → UpResponse)
    (method path : String) (h : isValidManifestPath path = false) :
    serveV2 upstream method path =
      { status := 404, allowHeader := none, contentType := none
        digest := none, body := "404 page not found\n", upstreamCalls := 0 } := by
  simp [serveV2, h]

/-- C6 (witness): a `POST` to a reference-less path. -/
theorem invalid_path_not_found_concrete :
    isValidManifestPath "/v2/library/alpine/manifests/" = false ∧
    serveV2 testUpstream "POST" "/v2/library/alpine/manifests/" =
      { status := 404, allowHeader := none, contentType := none
        digest := none, body := "404 page not found\n", upstreamCalls := 0 } :=
  ⟨by decide, invalid_path_not_found testUpstream "POST" _ (by decide)⟩

/-! ## Claim theorems: the manifest cache (modelled from the spec) -/

/-- A sample key, the repository's test manifest as a cache entry, a
cache holding exactly that entry, and an upstream answering with the
test manifest — concrete data for evaluating the cache model. -/
def sampleKey : ManifestKey := ("library/alpine", "latest")

/-- The cached snapshot of the test upstream's manifest response. -/
def sampleEntry : CachedManifest :=
  { contentType := "application/vnd.docker.distribution.manifest.v2+json"
    contentDigest := "sha256:c0ffee"
    body := "\x7b\"schemaVersion\":2,\"mediaType\":\"application/vnd.docker.distribution.manifest.v2+json\"\x7d"
    statusCode := 200 }

/-- A cache holding exactly the sample entry under the sample key. -/
def sampleCache : Cache := fun k => if k = sampleKey then some sampleEntry else none

/-- An upstream whose every fetch yields the test manifest. -/
def sampleFetch : ManifestKey → FetchResult := fun _ =>
  { status := 200
    contentType := some "application/vnd.docker.distribution.manifest.v2+json"
    digest := some "sha256:c0ffee"
    body := "\x7b\"schemaVersion\":2,\"mediaType\":\"application/vnd.docker.distribution.manifest.v2+json\"\x7d" }

/-- An upstream that always fails with 503. -/
def errorFetch : ManifestKey → FetchResult := fun _ =>
  { status := 503, contentType := none, digest := none
    body := "service unavailable" }

/-- The empty cache. -/
def emptyCache : Cache := fun _ => none

/-- C3: once a key is cached, an arbitrary sequence of further requests
for that key — whatever their methods — is answered entirely from the
stored entry (its content type, digest, and body, the body emptied for
`HEAD`), leaves the cache untouched, and makes zero upstream calls. -/
theorem cached_key_served_without_upstream
    (upstream : ManifestKey → FetchResult) (st : Cache) (key : ManifestKey)
    (e : CachedManifest) (methods : List String) (h : st key = some e) :
    processSeq upstream st (methods.map (fun m => (m, key))) =
      (methods.map (fun m => hitReply m e), st, 0) := by
  induction methods with
  | nil => rfl
  | cons m ms ih =>
    simp [processSeq, processRequest, h, ih]

/-- C3 (witness): three requests (`GET`, `HEAD`, `GET`) against the
sample cache. -/
theorem cached_key_served_without_upstream_concrete :
    sampleCache sampleKey = some sampleEntry ∧
    processSeq sampleFetch sampleCache
        ((["GET", "HEAD", "GET"]).map (fun m => (m, sampleKey))) =
      ((["GET", "HEAD", "GET"]).map (fun m => hitReply m sampleEntry),
        sampleCache, 0) :=
  ⟨by decide,
    cached_key_served_without_upstream sampleFetch sampleCache sampleKey
      sampleEntry ["GET", "HEAD", "GET"] (by decide)⟩

/-- C7: when the cache misses and the upstream answers with any 4xx or
5xx status, the client's reply carries the upstream's exact status code
and body, the cache is returned unchanged (in particular the key stays
uncached), that request made exactly one upstream call — and a second
request for the same key makes another upstream call. -/
theorem upstream_error_passthrough_uncached
    (upstream : ManifestKey → FetchResult) (st : Cache) (key : ManifestKey)
    (method method2 : String) (hmiss : st key = none)
    (herr : 400 ≤ (upstream key).status) :
    (processRequest upstream st method key).1.status = (upstream key).status ∧
    (processRequest upstream st method key).1.body = (upstream key).body ∧
    (processRequest upstream st method key).2.1 = st ∧
    (processRequest upstream st method key).2.2 = 1 ∧
    (processRequest upstream
      ((processRequest upstream st method key).2.1) method2 key).2.2 = 1 := by
  have hne : (upstream key).status ≠ 200 := by omega
  have hc : cacheable (upstream key) = false := by
    simp [cacheable, hne]
  refine ⟨?_, ?_, ?_, ?_, ?_⟩ <;>
    simp [processRequest, hmiss, hc]

/-- C7 (witness): a 503 upstream against the empty cache. -/
theorem upstream_error_passthrough_uncached_concrete :
    emptyCache sampleKey = none ∧
    400 ≤ (errorFetch sampleKey).status ∧
    ((processRequest errorFetch emptyCache "GET" sampleKey).1.status =
        (errorFetch sampleKey).status ∧
      (processRequest errorFetch emptyCache "GET" sampleKey).1.body =
        (errorFetch sampleKey).body ∧
      (processRequest errorFetch emptyCache "GET" sampleKey).2.1 = emptyCache ∧
      (processRequest errorFetch emptyCache "GET" sampleKey).2.2 = 1 ∧
      (processRequest errorFetch
        ((processRequest errorFetch emptyCache "GET" sampleKey).2.1)
        "GET" sampleKey).2.2 = 1) :=
  ⟨rfl, by decide,
    upstream_error_passthrough_uncached errorFetch emptyCache sampleKey
      "GET" "GET" rfl (by decide)⟩

/-! ## Lemmas about single-flight traces -/

/-- Running a concatenated trace runs the pieces in order. -/
theorem runTrace_append (l1 l2 : List Event) :
    ∀ s : FlightState, runTrace s (l1 ++ l2) =
      (runTrace s l1).bind fun s1 => runTrace s1 l2 := by
  induction l1 with
  | nil => intro s; rfl
  | cons e rest ih =>
    intro s
    cases h : stepEvent s e with
    | none => simp [runTrace, h]
    | some s1 => simp [runTrace, h, ih s1]

/-- While a fetch is in flight for an uncached key, every further
arrival for that key joins the waiter list: the cache, the delivered
results and the upstream call count are untouched, and the final waiter
list holds exactly the old waiters and the new arrivals. -/
theorem runTrace_join (key : ManifestKey) :
    ∀ (rids : List Nat) (s : FlightState) (ws : List Nat),
      s.cache key = none → s.inflight key = some ws →
      ∃ s' ws', runTrace s (rids.map (fun r => Event.arrive r key)) = some s' ∧
        s'.cache = s.cache ∧ s'.delivered = s.delivered ∧
        s'.upstreamCalls = s.upstreamCalls ∧
        s'.inflight key = some ws' ∧
        ∀ r : Nat, r ∈ ws' ↔ r ∈ rids ∨ r ∈ ws := by
  intro rids
  induction rids with
  | nil =>
    intro s ws hc hi
    exact ⟨s, ws, rfl, rfl, rfl, rfl, hi, fun r => by simp⟩
  | cons rid rest ih =>
    intro s ws hc hi
    have hstep : stepEvent s (Event.arrive rid key) =
        some { s with inflight :=
          fun k => if k = key then some (rid :: ws) else s.inflight k } := by
      simp [stepEvent, hc, hi]
    obtain ⟨s', ws', hrun, hcache, hdel, hcalls, hinf, hmem⟩ :=
      ih { s with inflight :=
            fun k => if k = key then some (rid :: ws) else s.inflight k }
        (rid :: ws) hc (by simp)
    refine ⟨s', ws', ?_, hcache, hdel, hcalls, hinf, ?_⟩
    · simp [runTrace, hstep, hrun]
    · intro r
      rw [hmem r]
      simp [List.mem_cons]
      tauto

/-- Once a key is cached, every further arrival for it is answered from
the cache: only the delivered map changes, each arriving requester
receiving the cached entry. -/
theorem runTrace_hits (key : ManifestKey) :
    ∀ (rids : List Nat) (s : FlightState) (e : CachedManifest),
      s.cache key = some e →
      ∃ s', runTrace s (rids.map (fun r => Event.arrive r key)) = some s' ∧
        s'.cache = s.cache ∧ s'.inflight = s.inflight ∧
        s'.upstreamCalls = s.upstreamCalls ∧
        (∀ r : Nat, r ∈ rids → s'.delivered r = some e) ∧
        ∀ r : Nat, r ∉ rids → s'.delivered r = s.delivered r := by
  intro rids
  induction rids with
  | nil =>
    intro s e hc
    exact ⟨s, rfl, rfl, rfl, rfl, by simp, fun r _ => rfl⟩
  | cons rid rest ih =>
    intro s e hc
    have hstep : stepEvent s (Event.arrive rid key) =
        some { s with delivered :=
          fun r => if r = rid then some e else s.delivered r } := by
      simp [stepEvent, hc]
    obtain ⟨s', hrun, hcache, hinf, hcalls, hdel1, hdel2⟩ :=
      ih { s with delivered :=
            fun r => if r = rid then some e else s.delivered r } e hc
    refine ⟨s', ?_, hcache, hinf, hcalls, ?_, ?_⟩
    · simp [runTrace, hstep, hrun]
    · intro r hr
      rcases List.mem_cons.mp hr with hr | hr
      · by_cases hmem : r ∈ rest
        · exact hdel1 r hmem
        · rw [hdel2 r hmem]
          simp [hr]
      · exact hdel1 r hr
    · intro r hr
      have h1 : r ∉ rest := fun h => hr (List.mem_cons_of_mem _ h)
      have h2 : r ≠ rid := fun h => hr (h ▸ List.mem_cons_self _ _)
      rw [hdel2 r h1]
      simp [h2]

/-- C4: starting from nothing cached and nothing in flight, take any
interleaving of first-time arrivals for one key — a non-empty batch
before the fetch resolves, any batch after — with the single
resolution of the in-flight fetch.  The whole trace runs, exactly one
upstream call is ever started, and every requester ends up delivered
the one fetched entry, so all of them observe the same content type,
digest and body. -/
theorem single_flight_one_fetch (key : ManifestKey) (v : CachedManifest)
    (rids1 rids2 : List Nat) (h1 : rids1 ≠ []) :
    ∃ s', runTrace initFlight
        (rids1.map (fun r => Event.arrive r key) ++
          Event.resolve key v :: rids2.map (fun r => Event.arrive r key)) =
        some s' ∧
      s'.upstreamCalls = 1 ∧
      ∀ r ∈ rids1 ++ rids2, s'.delivered r = some v := by
  obtain ⟨rid0, rest1, rfl⟩ := List.exists_cons_of_ne_nil h1
  have hstep0 : stepEvent initFlight (Event.arrive rid0 key) =
      some { initFlight with
        inflight := fun k => if k = key then some [rid0] else initFlight.inflight k
        upstreamCalls := initFlight.upstreamCalls + 1 } := rfl
  obtain ⟨s2, ws', hrun2, hc2, hd2, hcalls2, hinf2, hmem2⟩ :=
    runTrace_join key rest1
      { initFlight with
        inflight := fun k => if k = key then some [rid0] else initFlight.inflight k
        upstreamCalls := initFlight.upstreamCalls + 1 }
      [rid0] rfl (by simp)
  have hstep3 : stepEvent s2 (Event.resolve key v) =
      some { s2 with
        cache := fun k => if k = key then some v else s2.cache k
        inflight := fun k => if k = key then none else s2.inflight k
        delivered := fun r => if r ∈ ws' then some v else s2.delivered r } := by
    simp [stepEvent, hinf2]
  obtain ⟨s4, hrun4, hc4, hinf4, hcalls4, hdel41, hdel42⟩ :=
    runTrace_hits key rids2
      { s2 with
        cache := fun k => if k = key then some v else s2.cache k
        inflight := fun k => if k = key then none else s2.inflight k
        delivered := fun r => if r ∈ ws' then some v else s2.delivered r }
      v (by simp)
  refine ⟨s4, ?_, ?_, ?_⟩
  · show runTrace
      { initFlight with
        inflight := fun k => if k = key then some [rid0] else initFlight.inflight k
        upstreamCalls := initFlight.upstreamCalls + 1 }
      (rest1.map (fun r => Event.arrive r key) ++
        Event.resolve key v :: rids2.map (fun r => Event.arrive r key)) = some s4
    rw [runTrace_append, hrun2]
    show runTrace s2
      (Event.resolve key v :: rids2.map (fun r => Event.arrive r key)) = some s4
    simp only [runTrace]
    rw [hstep3]
    exact hrun4
  · rw [hcalls4]
    show s2.upstreamCalls = 1
    rw [hcalls2]
    rfl
  · intro r hr
    by_cases hin2 : r ∈ rids2
    · exact hdel41 r hin2
    · have hr1 : r ∈ rid0 :: rest1 := by
        rcases List.mem_append.mp hr with h | h
        · exact h
        · exact absurd h hin2
      have hws : r ∈ ws' := by
        rw [hmem2 r]
        rcases List.mem_cons.mp hr1 with h | h
        · exact Or.inr (by simp [h])
        · exact Or.inl h
      rw [hdel42 r hin2]
      simp [hws]

/-- C4 (witness): requester 0 arrives first, requester 1 after the
fetch resolves; one upstream call, both delivered the sample entry. -/
theorem single_flight_one_fetch_concrete :
    ([0] : List Nat) ≠ [] ∧
    ∃ s', runTrace initFlight
        (([0] : List Nat).map (fun r => Event.arrive r sampleKey) ++
          Event.resolve sampleKey sampleEntry ::
            ([1] : List Nat).map (fun r => Event.arrive r sampleKey)) =
        some s' ∧
      s'.upstreamCalls = 1 ∧
      ∀ r ∈ ([0] : List Nat) ++ [1], s'.delivered r = some sampleEntry :=
  ⟨by decide, single_flight_one_fetch sampleKey sampleEntry [0] [1] (by decide)⟩

/-! ## Claim theorems: forwarder construction -/

/-- The mirror configuration a successful construction yields. -/
def builtCfg : EdgeNestCfg := { transport := { disableCompression := true } }

/-- C8: every successfully constructed mirror has compression disabled
on its upstream transport, so whatever transformation the transport
could otherwise apply, the body delivered to the client is byte-for-byte
the body the upstream produced. -/
theorem forwarded_body_byte_identical (parsed : Except String GoURL)
    (cfg : EdgeNestCfg) (h : NewEdgeNest parsed = .ok cfg)
    (transform : String → String) (body : String) :
    transportBody cfg.transport transform body = body := by
  cases parsed with
  | error e => cases h
  | ok u =>
    by_cases hu : u.scheme = "" ∨ u.host = ""
    · exfalso
      unfold NewEdgeNest at h
      rcases hu with hu | hu <;> simp [hu] at h
    · push_neg at hu
      unfold NewEdgeNest at h
      simp [hu.1, hu.2] at h
      subst h
      rfl

/-- C8 (witness): a well-formed upstream address, an arbitrary
constant transformation, and a concrete body. -/
theorem forwarded_body_byte_identical_concrete :
    NewEdgeNest (Except.ok { scheme := "https", host := "registry.example" }) =
      Except.ok builtCfg ∧
    transportBody builtCfg.transport (fun _ => "") "manifest-bytes" =
      "manifest-bytes" :=
  ⟨rfl, forwarded_body_byte_identical
    (Except.ok { scheme := "https", host := "registry.example" })
    builtCfg rfl (fun _ => "") "manifest-bytes"⟩

/-- C9: whenever the parsed upstream address has an empty scheme or an
empty host, `NewEdgeNest` returns the configuration error instead of a
mirror — construction fails, so no handler exists to serve requests. -/
theorem missing_scheme_or_host_fails_construction (u : GoURL)
    (h : u.scheme = "" ∨ u.host = "") :
    NewEdgeNest (.ok u) = .error "upstream URL missing scheme or host" := by
  unfold NewEdgeNest
  rcases h with h | h <;> simp [h]

/-- C9 (witness): an address with a host but no scheme. -/
theorem missing_scheme_or_host_fails_construction_concrete :
    (({ scheme := "", host := "registry.example" } : GoURL).scheme = "" ∨
      ({ scheme := "", host := "registry.example" } : GoURL).host = "") ∧
    NewEdgeNest (.ok { scheme := "", host := "registry.example" }) =
      .error "upstream URL missing scheme or host" :=
  ⟨Or.inl rfl, missing_scheme_or_host_fails_construction
    { scheme := "", host := "registry.example" } (Or.inl rfl)⟩

end EdgeNest
